import Mathlib

/-
Verification of the glTF 2.0 loader document model and resolution protocol,
the holographic-slate image setter, the PBR material texture-disposal
convention, and the mesh transform-baking utility.

The schema/data-model definitions mirror the loader interfaces
(glTFLoaderInterfaces.ts); the resolution, disposal and baking operations are
modelled from the specification of the loading protocol, since only their
interface declarations and tests appear in the sources.
-/

namespace GltfModel

/-- Mirror of IArrayItem applied to a schema record: a record paired with the
positional index stamped on it by the parser. -/
structure Indexed (α : Type) where
  index : Nat
  value : α
deriving DecidableEq

/-- Modelled from the spec: the parser stamps each element of a top-level
array with its position, counting from the given starting position. -/
def stampFrom {α : Type} (n : Nat) : List α → List (Indexed α)
  | [] => []
  | a :: as => ⟨n, a⟩ :: stampFrom (n + 1) as

/-- Modelled from the spec: stamp a whole top-level array, positions from 0. -/
def assignIndices {α : Type} (l : List α) : List (Indexed α) :=
  stampFrom 0 l

theorem stampFrom_map_index {α : Type} (l : List α) (n : Nat) :
    (stampFrom n l).map Indexed.index = List.range' n l.length := by
  induction l generalizing n with
  | nil => rfl
  | cons a as ih => simp [stampFrom, List.range', ih]

theorem assignIndices_map_index {α : Type} (l : List α) :
    (assignIndices l).map Indexed.index = List.range l.length := by
  rw [assignIndices, stampFrom_map_index, List.range_eq_range']

theorem stampFrom_map_value {α : Type} (l : List α) (n : Nat) :
    (stampFrom n l).map Indexed.value = l := by
  induction l generalizing n with
  | nil => rfl
  | cons a as ih => simp [stampFrom, ih]

/-- Mirror of the accessor schema record (GLTF2.IAccessor): a typed view of a
buffer view; the bufferView field is an integer cross-reference. -/
structure AccessorRec where
  bufferView : Option Nat
  byteOffset : Nat
  componentType : Nat
  normalized : Bool
  count : Nat
  accessorType : Nat
deriving DecidableEq

/-- Mirror of the buffer schema record (GLTF2.IBuffer). -/
structure BufferRec where
  uri : Option String
  byteLength : Nat
deriving DecidableEq

/-- Mirror of the buffer-view schema record (GLTF2.IBufferView); the buffer
field is an integer cross-reference. -/
structure BufferViewRec where
  buffer : Nat
  byteOffset : Nat
  byteLength : Nat
  byteStride : Option Nat
deriving DecidableEq

/-- Mirror of the camera schema record (GLTF2.ICamera). -/
structure CameraRec where
  cameraType : Nat
deriving DecidableEq

/-- Mirror of the image schema record (GLTF2.IImage); the bufferView field is
an integer cross-reference. -/
structure ImageRec where
  uri : Option String
  bufferView : Option Nat
deriving DecidableEq

/-- Mirror of ITextureInfo: an integer cross-reference into the textures
array together with the per-reference nonColorData flag (false or undefined
when the referencing slot holds color data). -/
structure TextureInfoRef where
  index : Nat
  texCoord : Nat
  nonColorData : Option Bool
deriving DecidableEq

/-- Mirror of IMaterial: shading parameters with up to five texture-info
references. -/
structure MaterialRec where
  baseColorTexture : Option TextureInfoRef
  metallicRoughnessTexture : Option TextureInfoRef
  normalTexture : Option TextureInfoRef
  occlusionTexture : Option TextureInfoRef
  emissiveTexture : Option TextureInfoRef
deriving DecidableEq

/-- Mirror of IMeshPrimitive: vertex-attribute accessor references keyed by
attribute kind, an optional indices accessor and an optional material. -/
structure MeshPrimitiveRec where
  attributes : List (String × Nat)
  indices : Option Nat
  material : Option Nat
  mode : Option Nat
deriving DecidableEq

/-- Mirror of IMesh: an ordered sequence of primitives. -/
structure MeshRec where
  primitives : List MeshPrimitiveRec
deriving DecidableEq

/-- Mirror of INode: child node references plus optional mesh, camera and
skin references. -/
structure NodeRec where
  children : List Nat
  mesh : Option Nat
  camera : Option Nat
  skin : Option Nat
deriving DecidableEq

/-- Mirror of ISampler: filtering and wrap parameters, no cross-references. -/
structure SamplerRec where
  magFilter : Option Nat
  minFilter : Option Nat
  wrapS : Option Nat
  wrapT : Option Nat
deriving DecidableEq

/-- Mirror of IScene: the root node references. -/
structure SceneRec where
  nodes : List Nat
deriving DecidableEq

/-- Mirror of ISkin: joint node references plus an optional inverse-bind
accessor and an optional skeleton-root node. -/
structure SkinRec where
  joints : List Nat
  inverseBindMatrices : Option Nat
  skeleton : Option Nat
deriving DecidableEq

/-- Mirror of ITexture: an optional sampler reference and an optional image
source reference; the texture record itself carries no nonColorData flag. -/
structure TextureRec where
  sampler : Option Nat
  source : Option Nat
deriving DecidableEq

/-- Mirror of IAnimationChannel: a sampler reference (into the animation's
own sampler array) and an optional target node reference. -/
structure AnimationChannelRec where
  sampler : Nat
  targetNode : Option Nat
  targetPath : Nat
deriving DecidableEq

/-- Mirror of IAnimationSampler: input and output accessor references. -/
structure AnimationSamplerRec where
  input : Nat
  interpolation : Nat
  output : Nat
deriving DecidableEq

/-- Mirror of IAnimation: channels and samplers. -/
structure AnimationRec where
  channels : List AnimationChannelRec
  samplers : List AnimationSamplerRec
deriving DecidableEq

/-- Mirror of IGLTF: the thirteen top-level arrays of a parsed document. -/
structure Gltf where
  accessors : List AccessorRec
  animations : List AnimationRec
  buffers : List BufferRec
  bufferViews : List BufferViewRec
  cameras : List CameraRec
  images : List ImageRec
  materials : List MaterialRec
  meshes : List MeshRec
  nodes : List NodeRec
  samplers : List SamplerRec
  scenes : List SceneRec
  skins : List SkinRec
  textures : List TextureRec
deriving DecidableEq

/-- Mirror of IGLTF after index stamping: each top-level array element paired
with its positional index. -/
structure StampedGltf where
  accessors : List (Indexed AccessorRec)
  animations : List (Indexed AnimationRec)
  buffers : List (Indexed BufferRec)
  bufferViews : List (Indexed BufferViewRec)
  cameras : List (Indexed CameraRec)
  images : List (Indexed ImageRec)
  materials : List (Indexed MaterialRec)
  meshes : List (Indexed MeshRec)
  nodes : List (Indexed NodeRec)
  samplers : List (Indexed SamplerRec)
  scenes : List (Indexed SceneRec)
  skins : List (Indexed SkinRec)
  textures : List (Indexed TextureRec)
deriving DecidableEq

/-- Modelled from the spec: the setup pass that stamps every element of every
top-level array of a parsed document with its positional index. -/
def stampDoc (g : Gltf) : StampedGltf where
  accessors := assignIndices g.accessors
  animations := assignIndices g.animations
  buffers := assignIndices g.buffers
  bufferViews := assignIndices g.bufferViews
  cameras := assignIndices g.cameras
  images := assignIndices g.images
  materials := assignIndices g.materials
  meshes := assignIndices g.meshes
  nodes := assignIndices g.nodes
  samplers := assignIndices g.samplers
  scenes := assignIndices g.scenes
  skins := assignIndices g.skins
  textures := assignIndices g.textures

end GltfModel

namespace GltfModel

/-- C2: in the stamped document, every top-level array's sequence of stamped
index fields is exactly 0, 1, ..., length-1, i.e. each element's index equals
its position in its array, so an integer cross-reference resolves by direct
array indexing. -/
theorem stampDoc_indexes_are_positions (g : Gltf) :
    (stampDoc g).accessors.map Indexed.index = List.range g.accessors.length ∧
    (stampDoc g).animations.map Indexed.index = List.range g.animations.length ∧
    (stampDoc g).buffers.map Indexed.index = List.range g.buffers.length ∧
    (stampDoc g).bufferViews.map Indexed.index = List.range g.bufferViews.length ∧
    (stampDoc g).cameras.map Indexed.index = List.range g.cameras.length ∧
    (stampDoc g).images.map Indexed.index = List.range g.images.length ∧
    (stampDoc g).materials.map Indexed.index = List.range g.materials.length ∧
    (stampDoc g).meshes.map Indexed.index = List.range g.meshes.length ∧
    (stampDoc g).nodes.map Indexed.index = List.range g.nodes.length ∧
    (stampDoc g).samplers.map Indexed.index = List.range g.samplers.length ∧
    (stampDoc g).scenes.map Indexed.index = List.range g.scenes.length ∧
    (stampDoc g).skins.map Indexed.index = List.range g.skins.length ∧
    (stampDoc g).textures.map Indexed.index = List.range g.textures.length :=
  ⟨assignIndices_map_index _, assignIndices_map_index _, assignIndices_map_index _,
   assignIndices_map_index _, assignIndices_map_index _, assignIndices_map_index _,
   assignIndices_map_index _, assignIndices_map_index _, assignIndices_map_index _,
   assignIndices_map_index _, assignIndices_map_index _, assignIndices_map_index _,
   assignIndices_map_index _⟩

end GltfModel

namespace GltfResolution

open GltfModel

/-- Schema entity kinds that carry lazily-resolved fields in the loader
interfaces. -/
inductive SchemaKind where
  | accessor
  | animation
  | animationSampler
  | buffer
  | bufferView
  | camera
  | image
  | material
  | mesh
  | meshPrimitive
  | node
  | sampler
  | scene
  | skin
  | texture
deriving DecidableEq

/-- Derivation kinds, one per lazily-populated resolved/produced field family
of the loader interfaces: raw decoded data, a GPU vertex buffer keyed by
attribute kind, a GPU buffer, an animation group, instanced source geometry,
a constructed material keyed by draw mode, a skeleton. -/
inductive DerivationKind where
  | rawData
  | vertexBuffer (attributeKind : String)
  | gpuBuffer
  | animationGroup
  | instanceGeometry
  | materialVariant (babylonDrawMode : Nat)
  | skeleton
deriving DecidableEq

/-- A resolution key: the identity of a schema entity (kind plus stamped
index) together with the derivation kind requested for it. -/
structure ResolutionKey where
  entityKind : SchemaKind
  entityIndex : Nat
  derivation : DerivationKind
deriving DecidableEq

/-- Modelled from the spec: the loader-private pending-operation slots held
on the schema records, viewed as a single-assignment table from resolution
keys to in-flight operation identifiers, plus an allocator for fresh
operation identifiers. -/
structure ResolutionState where
  slots : List (ResolutionKey × Nat)
  nextOp : Nat
deriving DecidableEq

/-- Find the stored in-flight operation for a key, if any. -/
def lookupSlot : List (ResolutionKey × Nat) → ResolutionKey → Option Nat
  | [], _ => none
  | p :: ps, k => if p.1 = k then some p.2 else lookupSlot ps k

/-- Modelled from the spec: requesting a derivation for an entity. The first
request stores a freshly started operation in the entity's slot; every later
request for the same key returns the stored operation without starting a new
one. The result is the operation identifier, a flag telling whether a new
operation was started by this request, and the updated state. -/
def request (s : ResolutionState) (k : ResolutionKey) :
    Nat × Bool × ResolutionState :=
  match lookupSlot s.slots k with
  | some op => (op, false, s)
  | none => (s.nextOp, true, ⟨(k, s.nextOp) :: s.slots, s.nextOp + 1⟩)

/-- Run a sequence of resolution requests, recording for each one the key,
the operation identifier observed, and whether it started a new operation. -/
def runRequests (s : ResolutionState) :
    List ResolutionKey → List (ResolutionKey × Nat × Bool) × ResolutionState
  | [] => ([], s)
  | k :: ks =>
    let r := request s k
    let rest := runRequests r.2.2 ks
    ((k, r.1, r.2.1) :: rest.1, rest.2)

/-- The loader state before any resolution has been requested. -/
def initState : ResolutionState := ⟨[], 0⟩

/-- How many of the recorded requests for key k started a new operation. -/
def freshCountFor (k : ResolutionKey) (outs : List (ResolutionKey × Nat × Bool)) : Nat :=
  outs.countP (fun o => decide (o.1 = k) && o.2.2)

theorem lookupSlot_request_self (s : ResolutionState) (k : ResolutionKey) :
    lookupSlot (request s k).2.2.slots k = some (request s k).1 := by
  cases h : lookupSlot s.slots k with
  | none => simp [request, h, lookupSlot]
  | some op => simp [request, h]

theorem lookupSlot_request_other (s : ResolutionState) (k k' : ResolutionKey)
    (h : k' ≠ k) :
    lookupSlot (request s k).2.2.slots k' = lookupSlot s.slots k' := by
  cases hl : lookupSlot s.slots k with
  | none =>
    simp only [request, hl, lookupSlot]
    rw [if_neg (fun he => h he.symm)]
  | some op => simp [request, hl]

theorem ops_const_of_stored (ks : List ResolutionKey) :
    ∀ (s : ResolutionState) (k : ResolutionKey) (op : Nat),
      lookupSlot s.slots k = some op →
      ∀ o ∈ (runRequests s ks).1, o.1 = k → o.2.1 = op ∧ o.2.2 = false := by
  induction ks with
  | nil => intro s k op _ o ho; simp [runRequests] at ho
  | cons k₀ ks ih =>
    intro s k op hst o ho hok
    simp only [runRequests, List.mem_cons] at ho
    rcases ho with ho | ho
    · subst ho
      simp only at hok
      subst hok
      simp only [request, hst]
      exact ⟨trivial, trivial⟩
    · by_cases hk : k₀ = k
      · subst hk
        have hreq : request s k₀ = (op, false, s) := by simp [request, hst]
        refine ih (request s k₀).2.2 k₀ op ?_ o ho hok
        rw [hreq]; exact hst
      · refine ih (request s k₀).2.2 k op ?_ o ho hok
        rw [lookupSlot_request_other s k₀ k (fun he => hk he.symm)]
        exact hst

theorem fresh_once_of_empty (ks : List ResolutionKey) :
    ∀ (s : ResolutionState) (k : ResolutionKey),
      lookupSlot s.slots k = none →
      freshCountFor k (runRequests s ks).1 ≤ 1 ∧
      ∃ op, ∀ o ∈ (runRequests s ks).1, o.1 = k → o.2.1 = op := by
  induction ks with
  | nil =>
    intro s k _
    refine ⟨by simp [runRequests, freshCountFor], 0, ?_⟩
    intro o ho; simp [runRequests] at ho
  | cons k₀ ks ih =>
    intro s k hnone
    by_cases hk : k₀ = k
    · subst hk
      have hreq : request s k₀ = (s.nextOp, true, ⟨(k₀, s.nextOp) :: s.slots, s.nextOp + 1⟩) := by
        simp [request, hnone]
      have hstored : lookupSlot (request s k₀).2.2.slots k₀ = some s.nextOp := by
        rw [hreq]; simp [lookupSlot]
      have htail := ops_const_of_stored ks (request s k₀).2.2 k₀ s.nextOp hstored
      constructor
      · simp only [runRequests, freshCountFor, List.countP_cons]
        have hz : (runRequests (request s k₀).2.2 ks).1.countP
            (fun o => decide (o.1 = k₀) && o.2.2) = 0 := by
          rw [List.countP_eq_zero]
          intro o ho
          by_cases hok : o.1 = k₀
          · have := (htail o ho hok).2
            simp [this]
          · simp [hok]
        rw [hz]
        split <;> simp
      · refine ⟨s.nextOp, ?_⟩
        intro o ho hok
        simp only [runRequests, List.mem_cons] at ho
        rcases ho with ho | ho
        · subst ho; rw [hreq]
        · exact (htail o ho hok).1
    · have hnone' : lookupSlot (request s k₀).2.2.slots k = none := by
        rw [lookupSlot_request_other s k₀ k (fun he => hk he.symm)]
        exact hnone
      obtain ⟨hc, op, hop⟩ := ih (request s k₀).2.2 k hnone'
      constructor
      · simp only [runRequests, freshCountFor, List.countP_cons]
        have hd : decide ((k₀ : ResolutionKey) = k) = false := by
          simp [hk]
        simp only [hd, Bool.false_and, if_false, Bool.false_eq_true,
          Nat.add_zero]
        exact hc
      · refine ⟨op, ?_⟩
        intro o ho hok
        simp only [runRequests, List.mem_cons] at ho
        rcases ho with ho | ho
        · subst ho; exact absurd hok hk
        · exact hop o ho hok

end GltfResolution

namespace GltfResolution

/-- C1: for every resolution key (schema entity identity paired with a
derivation kind) and every sequence of resolution requests starting from a
fresh loader state, at most one request for that key starts a new operation,
and every request for that key observes the same stored operation
identifier, so the first request stores the in-flight operation and all
later requests for the same entity and derivation kind await it. -/
theorem resolved_field_populated_at_most_once
    (reqs : List ResolutionKey) (k : ResolutionKey) :
    freshCountFor k (runRequests initState reqs).1 ≤ 1 ∧
    ∀ o ∈ (runRequests initState reqs).1,
      ∀ o' ∈ (runRequests initState reqs).1,
        o.1 = k → o'.1 = k → o.2.1 = o'.2.1 := by
  obtain ⟨hc, op, hop⟩ := fresh_once_of_empty reqs initState k rfl
  exact ⟨hc, fun o ho o' ho' h h' => (hop o ho h).trans (hop o' ho' h').symm⟩

/-- Demo request sequence: one accessor requested as the position attribute,
then as the normal attribute, then as the position attribute again. -/
def demoRequests : List ResolutionKey :=
  [⟨SchemaKind.accessor, 7, DerivationKind.vertexBuffer "position"⟩,
   ⟨SchemaKind.accessor, 7, DerivationKind.vertexBuffer "normal"⟩,
   ⟨SchemaKind.accessor, 7, DerivationKind.vertexBuffer "position"⟩]

theorem resolved_field_populated_at_most_once_witness :
    freshCountFor ⟨SchemaKind.accessor, 7, DerivationKind.vertexBuffer "position"⟩
      (runRequests initState demoRequests).1 ≤ 1 ∧
    ((⟨SchemaKind.accessor, 7, DerivationKind.vertexBuffer "position"⟩, 0, true) :
        ResolutionKey × Nat × Bool).2.1 =
      ((⟨SchemaKind.accessor, 7, DerivationKind.vertexBuffer "position"⟩, 0, false) :
        ResolutionKey × Nat × Bool).2.1 := by
  have h := resolved_field_populated_at_most_once demoRequests
    ⟨SchemaKind.accessor, 7, DerivationKind.vertexBuffer "position"⟩
  exact ⟨h.1, h.2 _ (by decide) _ (by decide) (by decide) (by decide)⟩

end GltfResolution

namespace GltfMaterialVariants

/-- Mirror of one entry of IMaterial._data, keyed by babylonDrawMode: the
constructed engine material handle together with the consuming mesh objects
registered for that variant. -/
structure MaterialVariantEntry where
  babylonMaterial : Nat
  babylonMeshes : List Nat
deriving DecidableEq

/-- Modelled from the spec: the per-material _data map keyed by draw mode,
plus the allocator of fresh engine material handles. -/
structure MaterialLoadState where
  variants : List (Nat × MaterialVariantEntry)
  nextHandle : Nat
deriving DecidableEq

/-- Look up the entry constructed for a draw-mode variant, if any. -/
def findVariant : List (Nat × MaterialVariantEntry) → Nat → Option MaterialVariantEntry
  | [], _ => none
  | p :: ps, mode => if p.1 = mode then some p.2 else findVariant ps mode

/-- Modelled from the spec: loading a material for one consuming mesh under a
given draw-mode variant. If the variant entry already exists its constructed
material is reused, otherwise a fresh engine material is constructed and a
new entry stored; in both cases the consuming mesh is appended to that
variant's own mesh list. Returns the material handle the mesh will use. -/
def loadMaterialForMesh (s : MaterialLoadState) (mode mesh : Nat) :
    Nat × MaterialLoadState :=
  match findVariant s.variants mode with
  | some e =>
    (e.babylonMaterial,
     { s with
        variants := s.variants.map fun p =>
          if p.1 = mode then (mode, ⟨e.babylonMaterial, e.babylonMeshes ++ [mesh]⟩) else p })
  | none =>
    (s.nextHandle,
     { variants := (mode, ⟨s.nextHandle, [mesh]⟩) :: s.variants,
       nextHandle := s.nextHandle + 1 })

/-- The _data map of a material no draw-mode variant of which has been
constructed yet. -/
def emptyMaterialLoadState : MaterialLoadState := ⟨[], 0⟩

/-- C3: one material consumed under two distinct draw-mode variants produces
two distinct constructed material handles (0 and 1), each independently
memoized (the repeated request under the first mode reuses handle 0 and
allocates nothing), and each variant entry tracks only its own consuming
meshes. -/
theorem material_variants_isolated (m1 m2 meshA meshB meshC : Nat) (h : m1 ≠ m2) :
    findVariant ((loadMaterialForMesh (loadMaterialForMesh
        (loadMaterialForMesh emptyMaterialLoadState m1 meshA).2 m2 meshB).2
        m1 meshC).2).variants m1 = some ⟨0, [meshA, meshC]⟩ ∧
    findVariant ((loadMaterialForMesh (loadMaterialForMesh
        (loadMaterialForMesh emptyMaterialLoadState m1 meshA).2 m2 meshB).2
        m1 meshC).2).variants m2 = some ⟨1, [meshB]⟩ ∧
    (loadMaterialForMesh (loadMaterialForMesh
        (loadMaterialForMesh emptyMaterialLoadState m1 meshA).2 m2 meshB).2
        m1 meshC).1 = 0 ∧
    ((loadMaterialForMesh (loadMaterialForMesh
        (loadMaterialForMesh emptyMaterialLoadState m1 meshA).2 m2 meshB).2
        m1 meshC).2).nextHandle = 2 := by
  have hs1 : (loadMaterialForMesh emptyMaterialLoadState m1 meshA).2
      = ⟨[(m1, ⟨0, [meshA]⟩)], 1⟩ := rfl
  have hfv2 : findVariant [((m1 : Nat), (⟨0, [meshA]⟩ : MaterialVariantEntry))] m2
      = none := by
    simp [findVariant, h]
  have hs2 : loadMaterialForMesh (⟨[(m1, ⟨0, [meshA]⟩)], 1⟩ : MaterialLoadState) m2 meshB
      = (1, ⟨[(m2, ⟨1, [meshB]⟩), (m1, ⟨0, [meshA]⟩)], 2⟩) := by
    simp [loadMaterialForMesh, hfv2]
  have hfv3 : findVariant [((m2 : Nat), (⟨1, [meshB]⟩ : MaterialVariantEntry)),
      (m1, ⟨0, [meshA]⟩)] m1 = some ⟨0, [meshA]⟩ := by
    simp [findVariant, Ne.symm h]
  have hs3 : loadMaterialForMesh
      (⟨[(m2, ⟨1, [meshB]⟩), (m1, ⟨0, [meshA]⟩)], 2⟩ : MaterialLoadState) m1 meshC
      = (0, ⟨[(m2, ⟨1, [meshB]⟩), (m1, ⟨0, [meshA, meshC]⟩)], 2⟩) := by
    simp [loadMaterialForMesh, hfv3, Ne.symm h]
  rw [hs1, hs2, hs3]
  refine ⟨?_, ?_, rfl, rfl⟩
  · simp [findVariant, Ne.symm h]
  · simp [findVariant, h]

theorem material_variants_isolated_witness :
    findVariant ((loadMaterialForMesh (loadMaterialForMesh
        (loadMaterialForMesh emptyMaterialLoadState 4 10).2 7 11).2
        4 12).2).variants 4 = some ⟨0, [10, 12]⟩ ∧
    findVariant ((loadMaterialForMesh (loadMaterialForMesh
        (loadMaterialForMesh emptyMaterialLoadState 4 10).2 7 11).2
        4 12).2).variants 7 = some ⟨1, [11]⟩ ∧
    (loadMaterialForMesh (loadMaterialForMesh
        (loadMaterialForMesh emptyMaterialLoadState 4 10).2 7 11).2
        4 12).1 = 0 ∧
    ((loadMaterialForMesh (loadMaterialForMesh
        (loadMaterialForMesh emptyMaterialLoadState 4 10).2 7 11).2
        4 12).2).nextHandle = 2 :=
  material_variants_isolated 4 7 10 11 12 (by decide)

end GltfMaterialVariants

namespace GltfTextures

open GltfModel

/-- Mirror of the constructed engine texture object: its GPU handle, the
texture index it was decoded from, and the interpretation (nonColorData
flag) it was decoded and uploaded with. -/
structure BabylonTexture where
  handle : Nat
  textureIndex : Nat
  nonColorData : Bool
deriving DecidableEq

/-- Modelled from the spec: resolving a list of material-slot texture
references. Each reference produces its own engine texture, decoded and
uploaded with that reference's own nonColorData interpretation (absent means
color data) under a freshly allocated GPU handle; the flag is read from the
TextureInfo of the referencing slot, never from the texture record. -/
def resolveTextureRefs (next : Nat) :
    List TextureInfoRef → List BabylonTexture × Nat
  | [] => ([], next)
  | r :: rs =>
    let rest := resolveTextureRefs (next + 1) rs
    (⟨next, r.index, r.nonColorData.getD false⟩ :: rest.1, rest.2)

theorem resolveTextureRefs_handles (refs : List TextureInfoRef) (next : Nat) :
    (resolveTextureRefs next refs).1.map BabylonTexture.handle
      = List.range' next refs.length := by
  induction refs generalizing next with
  | nil => rfl
  | cons r rs ih => simp [resolveTextureRefs, List.range', ih]

/-- C4: the nonColorData flag is a property of each slot reference, not of
the texture entity: resolving texture references yields one engine texture
per reference, carrying exactly that reference's interpretation and texture
index, all under pairwise-distinct GPU handles; in particular a texture
referenced once from a color slot and once from a non-color slot yields two
distinct texture objects, never one GPU resource shared across the two
conflicting interpretations. -/
theorem nonColorData_isolated_per_reference (next : Nat) (refs : List TextureInfoRef) :
    (resolveTextureRefs next refs).1.map BabylonTexture.nonColorData
      = refs.map (fun r => r.nonColorData.getD false) ∧
    (resolveTextureRefs next refs).1.map BabylonTexture.textureIndex
      = refs.map TextureInfoRef.index ∧
    ((resolveTextureRefs next refs).1.map BabylonTexture.handle).Nodup ∧
    (∀ t1 ∈ (resolveTextureRefs next refs).1, ∀ t2 ∈ (resolveTextureRefs next refs).1,
      t1.nonColorData = false → t2.nonColorData = true → t1 ≠ t2) := by
  refine ⟨?_, ?_, ?_, ?_⟩
  · induction refs generalizing next with
    | nil => rfl
    | cons r rs ih => simp [resolveTextureRefs, ih]
  · induction refs generalizing next with
    | nil => rfl
    | cons r rs ih => simp [resolveTextureRefs, ih]
  · rw [resolveTextureRefs_handles]
    exact List.nodup_range' next refs.length
  · intro t1 _ t2 _ h1 h2 he
    rw [he, h2] at h1
    exact Bool.noConfusion h1

/-- A texture (index 3) referenced once from a base-color slot and once from
a normal-map slot. -/
def demoTextureRefs : List TextureInfoRef :=
  [⟨3, 0, none⟩, ⟨3, 0, some true⟩]

theorem nonColorData_isolated_per_reference_witness :
    (resolveTextureRefs 0 demoTextureRefs).1.map BabylonTexture.nonColorData
      = [false, true] ∧
    ((resolveTextureRefs 0 demoTextureRefs).1.map BabylonTexture.handle).Nodup ∧
    (⟨0, 3, false⟩ : BabylonTexture) ≠ (⟨1, 3, true⟩ : BabylonTexture) := by
  have h := nonColorData_isolated_per_reference 0 demoTextureRefs
  exact ⟨h.1, h.2.2.1,
    h.2.2.2 ⟨0, 3, false⟩ (by decide) ⟨1, 3, true⟩ (by decide) rfl rfl⟩

end GltfTextures

namespace GltfLoad

open GltfModel

/-- One GPU/engine resource constructed during a successful document load. -/
inductive GpuResource where
  | bufferData (bufferIndex : Nat)
  | gpuBuffer (bufferViewIndex : Nat)
  | vertexBufferOf (accessorIndex : Nat)
  | engineTexture (textureIndex : Nat)
  | engineMaterial (materialIndex : Nat)
  | engineMesh (meshIndex : Nat)
deriving DecidableEq

/-- Modelled from the spec: every integer cross-reference of a parsed
document paired with the length of the array it must index into. -/
def allRefs (g : Gltf) : List (Nat × Nat) :=
  (g.accessors.flatMap fun a =>
    a.bufferView.toList.map fun r => (r, g.bufferViews.length))
  ++ (g.bufferViews.map fun bv => (bv.buffer, g.buffers.length))
  ++ (g.images.flatMap fun im =>
    im.bufferView.toList.map fun r => (r, g.bufferViews.length))
  ++ (g.textures.flatMap fun t =>
    (t.sampler.toList.map fun r => (r, g.samplers.length))
    ++ (t.source.toList.map fun r => (r, g.images.length)))
  ++ (g.materials.flatMap fun m =>
    (m.baseColorTexture.toList.map fun ti => (ti.index, g.textures.length))
    ++ (m.metallicRoughnessTexture.toList.map fun ti => (ti.index, g.textures.length))
    ++ (m.normalTexture.toList.map fun ti => (ti.index, g.textures.length))
    ++ (m.occlusionTexture.toList.map fun ti => (ti.index, g.textures.length))
    ++ (m.emissiveTexture.toList.map fun ti => (ti.index, g.textures.length)))
  ++ (g.meshes.flatMap fun me => me.primitives.flatMap fun p =>
    (p.attributes.map fun kv => (kv.2, g.accessors.length))
    ++ (p.indices.toList.map fun r => (r, g.accessors.length))
    ++ (p.material.toList.map fun r => (r, g.materials.length)))
  ++ (g.nodes.flatMap fun nd =>
    (nd.children.map fun r => (r, g.nodes.length))
    ++ (nd.mesh.toList.map fun r => (r, g.meshes.length))
    ++ (nd.camera.toList.map fun r => (r, g.cameras.length))
    ++ (nd.skin.toList.map fun r => (r, g.skins.length)))
  ++ (g.skins.flatMap fun sk =>
    (sk.joints.map fun r => (r, g.nodes.length))
    ++ (sk.inverseBindMatrices.toList.map fun r => (r, g.accessors.length))
    ++ (sk.skeleton.toList.map fun r => (r, g.nodes.length)))
  ++ (g.scenes.flatMap fun sc => sc.nodes.map fun r => (r, g.nodes.length))
  ++ (g.animations.flatMap fun an =>
    (an.channels.flatMap fun ch =>
      (ch.targetNode.toList.map fun r => (r, g.nodes.length))
      ++ [(ch.sampler, an.samplers.length)])
    ++ (an.samplers.flatMap fun sp =>
      [(sp.input, g.accessors.length), (sp.output, g.accessors.length)]))

/-- The document contains a cross-reference index outside the half-open
interval from 0 to the length of its target array. -/
abbrev hasOOBRef (g : Gltf) : Prop :=
  ∃ p ∈ allRefs g, p.2 ≤ p.1

/-- Find the first out-of-bounds cross-reference, if any. -/
def findBadRef (g : Gltf) : Option (Nat × Nat) :=
  (allRefs g).find? fun p => decide (p.2 ≤ p.1)

/-- Modelled from the spec: the GPU/engine resources the full load walk of a
valid document constructs, one per resolvable entity. -/
def constructResources (g : Gltf) : List GpuResource :=
  ((stampDoc g).buffers.map fun b => GpuResource.bufferData b.index)
  ++ ((stampDoc g).bufferViews.map fun bv => GpuResource.gpuBuffer bv.index)
  ++ ((stampDoc g).accessors.map fun a => GpuResource.vertexBufferOf a.index)
  ++ ((stampDoc g).textures.map fun t => GpuResource.engineTexture t.index)
  ++ ((stampDoc g).materials.map fun m => GpuResource.engineMaterial m.index)
  ++ ((stampDoc g).meshes.map fun me => GpuResource.engineMesh me.index)

/-- Modelled from the spec: loading a document aborts with a
malformed-document error on the first out-of-bounds cross-reference before
any GPU resource is constructed; otherwise it constructs the resources of
the resolution walk. -/
def loadDocument (g : Gltf) : Except (Nat × Nat) (List GpuResource) :=
  match findBadRef g with
  | some bad => .error bad
  | none => .ok (constructResources g)

/-- How many GPU resources a load outcome constructed and retained. -/
def constructedCount : Except (Nat × Nat) (List GpuResource) → Nat
  | .ok rs => rs.length
  | .error _ => 0

/-- C5: for every document containing a cross-reference index outside the
bounds of its target array, loading fails with a malformed-document error
rather than silently defaulting, and zero GPU resources are constructed. -/
theorem load_fails_on_out_of_bounds (g : Gltf) (h : hasOOBRef g) :
    (∃ bad, loadDocument g = .error bad) ∧
    constructedCount (loadDocument g) = 0 := by
  obtain ⟨p, hp, hle⟩ := h
  have hne : findBadRef g ≠ none := by
    intro hn
    have hall := List.find?_eq_none.mp hn p hp
    simp only [decide_eq_true_eq] at hall
    exact hall hle
  cases hf : findBadRef g with
  | none => exact absurd hf hne
  | some bad =>
    refine ⟨⟨bad, ?_⟩, ?_⟩
    · simp [loadDocument, hf]
    · simp [loadDocument, hf, constructedCount]

/-- A malformed document: its only buffer view references buffer 5 while the
buffers array is empty. -/
def badDoc : Gltf :=
  ⟨[], [], [], [⟨5, 0, 4, none⟩], [], [], [], [], [], [], [], [], []⟩

theorem load_fails_on_out_of_bounds_witness :
    (∃ bad, loadDocument badDoc = .error bad) ∧
    constructedCount (loadDocument badDoc) = 0 :=
  load_fails_on_out_of_bounds badDoc (by decide)

end GltfLoad

namespace PbrMaterial

/-- Mirror of the PBRMaterial texture slots exercised by the disposal tests:
each slot optionally holds a texture, identified by the texture object's
identity, plus the environment BRDF texture. -/
structure PBRMaterialState where
  albedoTexture : Option Nat
  ambientTexture : Option Nat
  opacityTexture : Option Nat
  reflectionTexture : Option Nat
  emissiveTexture : Option Nat
  reflectivityTexture : Option Nat
  metallicTexture : Option Nat
  metallicReflectanceTexture : Option Nat
  reflectanceTexture : Option Nat
  microSurfaceTexture : Option Nat
  bumpTexture : Option Nat
  lightmapTexture : Option Nat
  refractionTexture : Option Nat
  environmentBRDFTexture : Option Nat
deriving DecidableEq

/-- The textures assigned to the thirteen ordinary texture slots. -/
def slotTextures (m : PBRMaterialState) : List Nat :=
  m.albedoTexture.toList ++ m.ambientTexture.toList ++ m.opacityTexture.toList
  ++ m.reflectionTexture.toList ++ m.emissiveTexture.toList
  ++ m.reflectivityTexture.toList ++ m.metallicTexture.toList
  ++ m.metallicReflectanceTexture.toList ++ m.reflectanceTexture.toList
  ++ m.microSurfaceTexture.toList ++ m.bumpTexture.toList
  ++ m.lightmapTexture.toList ++ m.refractionTexture.toList

/-- Modelled from the spec: the texture dispose-call trace of
PBRMaterial.dispose. When forceDisposeTextures is true every assigned slot
texture is disposed, and the environment BRDF texture is disposed only when
it is not also the scene's shared environment BRDF texture (in which case it
is externally owned); when forceDisposeTextures is false no texture is
disposed. forceDisposeEffect does not influence texture disposal. -/
def disposeTextureCalls (sceneEnvBRDF : Option Nat) (m : PBRMaterialState)
    (_forceDisposeEffect forceDisposeTextures : Bool) : List Nat :=
  if forceDisposeTextures then
    (match m.environmentBRDFTexture with
     | some t => if sceneEnvBRDF = some t then [] else [t]
     | none => []) ++ slotTextures m
  else []

/-- C10: dispose with forceDisposeTextures set to false performs zero
texture dispose calls on every slot texture and on the environment BRDF
texture, regardless of the scene, the assigned slots and the other
arguments. -/
theorem dispose_keeps_textures_without_force (sceneEnvBRDF : Option Nat)
    (m : PBRMaterialState) (forceDisposeEffect : Bool) :
    disposeTextureCalls sceneEnvBRDF m forceDisposeEffect false = [] := rfl

/-- C6: releasing the owning material with forced texture disposal invokes
dispose exactly once on every assigned slot texture, exactly once on the
environment BRDF texture when it is not externally owned, and zero times on
it when it is also the scene's shared environment BRDF texture, which
therefore survives disposal of the material that merely references it. -/
theorem dispose_exactly_once_per_owned_handle (sceneEnvBRDF : Option Nat)
    (m : PBRMaterialState)
    (hnd : (m.environmentBRDFTexture.toList ++ slotTextures m).Nodup) :
    (∀ t ∈ slotTextures m,
      (disposeTextureCalls sceneEnvBRDF m true true).count t = 1) ∧
    (∀ t, m.environmentBRDFTexture = some t → sceneEnvBRDF ≠ some t →
      (disposeTextureCalls sceneEnvBRDF m true true).count t = 1) ∧
    (∀ t, m.environmentBRDFTexture = some t → sceneEnvBRDF = some t →
      (disposeTextureCalls sceneEnvBRDF m true true).count t = 0) := by
  have hdisj := List.disjoint_of_nodup_append hnd
  have hslots : (slotTextures m).Nodup := List.Nodup.of_append_right hnd
  refine ⟨?_, ?_, ?_⟩
  · intro t ht
    have henv : (match m.environmentBRDFTexture with
        | some e => if sceneEnvBRDF = some e then ([] : List Nat) else [e]
        | none => []).count t = 0 := by
      cases he : m.environmentBRDFTexture with
      | none => rfl
      | some e =>
        have hne : e ≠ t := by
          intro het
          exact hdisj (by simp [he, het]) ht
        by_cases hs : sceneEnvBRDF = some e
        · simp [hs]
        · simp [hs, List.count_cons, hne]
    simp only [disposeTextureCalls, if_true, List.count_append, henv,
      Nat.zero_add]
    exact List.count_eq_one_of_mem hslots ht
  · intro t he hs
    have hts : t ∉ slotTextures m := fun hmem => hdisj (by simp [he]) hmem
    simp only [disposeTextureCalls, if_true, he, hs, List.count_append]
    simp [List.count_cons, List.count_eq_zero_of_not_mem hts]
  · intro t he hs
    have hts : t ∉ slotTextures m := fun hmem => hdisj (by simp [he]) hmem
    simp only [disposeTextureCalls, if_true, he, hs, List.count_append]
    simp [List.count_eq_zero_of_not_mem hts]

/-- The material of the disposal tests: thirteen distinct slot textures and
an environment BRDF texture that is also the scene's shared one. -/
def demoMaterial : PBRMaterialState :=
  ⟨some 0, some 1, some 2, some 3, some 4, some 5, some 6, some 7, some 8,
   some 9, some 10, some 11, some 12, some 13⟩

theorem dispose_exactly_once_per_owned_handle_witness :
    (∀ t ∈ slotTextures demoMaterial,
      (disposeTextureCalls (some 13) demoMaterial true true).count t = 1) ∧
    (disposeTextureCalls (some 13) demoMaterial true true).count 13 = 0 := by
  have h := dispose_exactly_once_per_owned_handle (some 13) demoMaterial (by decide)
  exact ⟨h.1, h.2.2 13 rfl rfl⟩

end PbrMaterial

namespace GltfNodeGraph

open GltfModel

/-- The child node references of a node, empty for an out-of-range index. -/
def childrenOf (g : Gltf) (i : Nat) : List Nat :=
  ((g.nodes[i]?).map NodeRec.children).getD []

/-- Modelled from the spec: the parent back-reference the tree-builder stores
on a loaded node, namely the node whose child list contains it. -/
def parentOf (g : Gltf) (j : Nat) : Option Nat :=
  (List.range g.nodes.length).find? fun i => decide (j ∈ childrenOf g i)

/-- The document lists each node as a child of at most one node. -/
abbrev wellFormedChildren (g : Gltf) : Prop :=
  ∀ i1 < g.nodes.length, ∀ i2 < g.nodes.length,
    ∀ j ∈ childrenOf g i1, j ∈ childrenOf g i2 → i1 = i2

/-- A single parent-to-child edge of the node graph. -/
def childEdge (g : Gltf) (i j : Nat) : Prop :=
  i < g.nodes.length ∧ j ∈ childrenOf g i

/-- A path of exactly k child edges from the first node to the second. -/
def pathTo (g : Gltf) : Nat → Nat → Nat → Prop
  | 0, i, j => i = j
  | k + 1, i, j => ∃ m, childEdge g i m ∧ pathTo g k m j

theorem pathTo_depth (g : Gltf) (d : Nat → Nat)
    (hd : ∀ i < g.nodes.length, ∀ j ∈ childrenOf g i, d j = d i + 1) :
    ∀ k i j, pathTo g k i j → d j = d i + k := by
  intro k
  induction k with
  | zero =>
    intro i j h
    rw [show j = i from (h : i = j).symm, Nat.add_zero]
  | succ k ih =>
    intro i j h
    obtain ⟨m, ⟨hi, hm⟩, hp⟩ := h
    have h1 := hd i hi m hm
    have h2 := ih m j hp
    omega

/-- C7: in a loaded node graph (one whose document lists each node as a child
of at most one node, and whose loader traversal assigned every child a depth
one greater than its parent), each node's parent back-reference is exactly
the unique node whose child list contains it, and the parent/child edges
admit no cycle; this holds regardless of the skin joint lists carried by the
same document. -/
theorem node_parent_consistent_and_acyclic (g : Gltf) (d : Nat → Nat)
    (hwf : wellFormedChildren g)
    (hd : ∀ i < g.nodes.length, ∀ j ∈ childrenOf g i, d j = d i + 1) :
    (∀ i j, parentOf g j = some i ↔ (i < g.nodes.length ∧ j ∈ childrenOf g i)) ∧
    (∀ i k, pathTo g k i i → k = 0) := by
  constructor
  · intro i j
    constructor
    · intro h
      have hmem := List.mem_of_find?_eq_some h
      have hp := List.find?_some h
      simp only [decide_eq_true_eq] at hp
      exact ⟨List.mem_range.mp hmem, hp⟩
    · rintro ⟨hi, hj⟩
      cases hf : parentOf g j with
      | none =>
        have hall := List.find?_eq_none.mp hf i (List.mem_range.mpr hi)
        simp only [decide_eq_true_eq] at hall
        exact absurd hj hall
      | some i' =>
        have hmem := List.mem_of_find?_eq_some hf
        have hp := List.find?_some hf
        simp only [decide_eq_true_eq] at hp
        rw [hwf i' (List.mem_range.mp hmem) i hi j hp hj]
  · intro i k hp
    have := pathTo_depth g d hd k i i hp
    omega

/-- A three-node document: node 0 has children 1 and 2, and a skin whose
joint list references node 2 from outside any mesh subtree. -/
def exampleNodeDoc : Gltf :=
  ⟨[], [], [], [], [], [], [], [],
   [⟨[1, 2], none, none, none⟩, ⟨[], none, none, none⟩, ⟨[], none, none, none⟩],
   [], [], [⟨[2], none, none⟩], []⟩

theorem node_parent_consistent_and_acyclic_witness :
    parentOf exampleNodeDoc 1 = some 0 ∧ ¬ pathTo exampleNodeDoc 1 0 0 := by
  have h := node_parent_consistent_and_acyclic exampleNodeDoc
    (fun i => if i = 0 then 0 else 1) (by decide) (by decide)
  refine ⟨(h.1 0 1).mpr (by decide), fun hp => ?_⟩
  exact Nat.one_ne_zero (h.2 0 1 hp)

end GltfNodeGraph

namespace MeshBaking

/-- A 3-vector of rational coordinates. -/
structure Vec3 where
  x : Rat
  y : Rat
  z : Rat
deriving DecidableEq

/-- A 4-by-4 transform matrix, row-major as in the engine's Matrix type. -/
structure Mat4 where
  m00 : Rat
  m01 : Rat
  m02 : Rat
  m03 : Rat
  m10 : Rat
  m11 : Rat
  m12 : Rat
  m13 : Rat
  m20 : Rat
  m21 : Rat
  m22 : Rat
  m23 : Rat
  m30 : Rat
  m31 : Rat
  m32 : Rat
  m33 : Rat
deriving DecidableEq

/-- Application of a transform matrix to a point, with perspective division,
as the engine's Vector3.TransformCoordinates does for a row-vector times
row-major matrix. -/
def transformCoordinates (v : Vec3) (mt : Mat4) : Vec3 :=
  let rwv := v.x * mt.m03 + v.y * mt.m13 + v.z * mt.m23 + mt.m33
  ⟨(v.x * mt.m00 + v.y * mt.m10 + v.z * mt.m20 + mt.m30) / rwv,
   (v.x * mt.m01 + v.y * mt.m11 + v.z * mt.m21 + mt.m31) / rwv,
   (v.x * mt.m02 + v.y * mt.m12 + v.z * mt.m22 + mt.m32) / rwv⟩

/-- The mesh heap: each mesh object identity maps to its optional position
vertex data (none when the mesh has no position vertex buffer). -/
structure MeshStore where
  positions : Nat → Option (List Vec3)

/-- Modelled from the spec: Mesh.bakeTransformIntoVertices, whose
implementation is absent from the sources (only its tests are present):
transform every position vertex by the matrix when position data exists,
leave the mesh unmodified otherwise, and in both cases return the mesh
object the method was called on. -/
def bakeTransformIntoVertices (s : MeshStore) (mid : Nat) (mt : Mat4) :
    MeshStore × Nat :=
  match s.positions mid with
  | none => (s, mid)
  | some ps =>
    (⟨fun j =>
        if j = mid then some (ps.map (fun v => transformCoordinates v mt))
        else s.positions j⟩,
     mid)

/-- C8: baking a transform returns the very mesh it was called on; when the
mesh has position data every position vertex is replaced by the matrix
applied to it, when it has none the whole store is unmodified, and other
meshes are never touched. -/
theorem bake_returns_same_mesh (s : MeshStore) (mid : Nat) (mt : Mat4) :
    (bakeTransformIntoVertices s mid mt).2 = mid ∧
    (bakeTransformIntoVertices s mid mt).1.positions mid
      = (s.positions mid).map (List.map (fun v => transformCoordinates v mt)) ∧
    (s.positions mid = none → (bakeTransformIntoVertices s mid mt).1 = s) ∧
    (∀ j, j ≠ mid →
      (bakeTransformIntoVertices s mid mt).1.positions j = s.positions j) := by
  cases h : s.positions mid with
  | none =>
    refine ⟨?_, ?_, ?_, ?_⟩ <;> simp [bakeTransformIntoVertices, h]
  | some ps =>
    refine ⟨?_, ?_, ?_, ?_⟩
    · simp [bakeTransformIntoVertices, h]
    · simp [bakeTransformIntoVertices, h]
    · intro hn
      exact Option.noConfusion hn
    · intro j hj
      simp [bakeTransformIntoVertices, h, hj]

/-- A heap holding one mesh (identity 0) with a single position vertex. -/
def demoStore : MeshStore :=
  ⟨fun j => if j = 0 then some [⟨1, 2, 3⟩] else none⟩

/-- Translation by 5 along the y axis, as in the baking test. -/
def demoMatrix : Mat4 :=
  ⟨1, 0, 0, 0, 0, 1, 0, 0, 0, 0, 1, 0, 0, 5, 0, 1⟩

theorem bake_returns_same_mesh_witness :
    (bakeTransformIntoVertices demoStore 1 demoMatrix).1 = demoStore ∧
    (bakeTransformIntoVertices demoStore 1 demoMatrix).1.positions 0
      = demoStore.positions 0 ∧
    (bakeTransformIntoVertices demoStore 1 demoMatrix).2 = 1 := by
  have h := bake_returns_same_mesh demoStore 1 demoMatrix
  exact ⟨h.2.2.1 rfl, h.2.2.2 0 (by decide), h.1⟩

end MeshBaking

namespace Slate

/-- Observable state of a HolographicSlate relevant to the imageUrl setter:
the stored url, the content control source, the facade-texture disposal
count, the content viewport, the content scale, and the texture transform
applied to the content material. -/
structure SlateState where
  imageUrl : Option String
  content : Option String
  facadeDisposals : Nat
  viewportX : Rat
  viewportY : Rat
  viewportW : Rat
  viewportH : Rat
  contentScale : Rat
  hasContentPlate : Bool
  contentMaterialHasTexture : Bool
  texUScale : Rat
  texVScale : Rat
  texUOffset : Rat
  texVOffset : Rat
deriving DecidableEq

/-- Embedding of HolographicSlate._rebuildContent: dispose the facade
texture, then, when the stored url is a non-empty (truthy) string, create an
image control with that source and, when the content plate exists, set it as
the slate content. -/
def rebuildContent (s : SlateState) : SlateState :=
  let s1 := { s with facadeDisposals := s.facadeDisposals + 1 }
  match s1.imageUrl with
  | some u =>
    if u ≠ "" then
      (if s1.hasContentPlate then { s1 with content := some u } else s1)
    else s1
  | none => s1

/-- Embedding of HolographicSlate._resetContentPositionAndZoom. -/
def resetContentPositionAndZoom (s : SlateState) : SlateState :=
  { s with
      viewportX := 0,
      viewportY := 1 - s.viewportH / s.viewportW,
      contentScale := 1 }

/-- Embedding of HolographicSlate._applyContentViewport: when the content
plate's material carries an albedo texture, push the viewport and scale into
the texture transform. -/
def applyContentViewport (s : SlateState) : SlateState :=
  if s.contentMaterialHasTexture then
    { s with
        texUScale := s.contentScale,
        texVScale := s.contentScale / s.viewportW * s.viewportH,
        texUOffset := s.viewportX,
        texVOffset := s.viewportY }
  else s

/-- Embedding of the HolographicSlate.imageUrl setter: return unchanged when
the new value equals the stored one, otherwise store it, rebuild the
content, reset the content position and zoom, and apply the viewport. -/
def setImageUrl (s : SlateState) (v : String) : SlateState :=
  if s.imageUrl = some v then s
  else
    applyContentViewport (resetContentPositionAndZoom
      (rebuildContent { s with imageUrl := some v }))

theorem rebuildContent_imageUrl (s : SlateState) :
    (rebuildContent s).imageUrl = s.imageUrl := by
  rcases s with ⟨url, c, fd, vx, vy, vw, vh, cs, hp, hm, us, vs, uo, vo⟩
  cases url with
  | none => rfl
  | some u =>
    simp only [rebuildContent]
    split
    · split <;> rfl
    · rfl

theorem applyContentViewport_imageUrl (s : SlateState) :
    (applyContentViewport s).imageUrl = s.imageUrl := by
  simp only [applyContentViewport]
  split <;> rfl

theorem setImageUrl_imageUrl (s : SlateState) (v : String) :
    (setImageUrl s v).imageUrl = some v := by
  simp only [setImageUrl]
  split
  · next h => exact h
  · rw [applyContentViewport_imageUrl]
    rw [show (resetContentPositionAndZoom
        (rebuildContent { s with imageUrl := some v })).imageUrl
        = (rebuildContent { s with imageUrl := some v }).imageUrl from rfl]
    rw [rebuildContent_imageUrl]

theorem setImageUrl_of_current (s : SlateState) (v : String)
    (h : s.imageUrl = some v) : setImageUrl s v = s := by
  simp only [setImageUrl]
  rw [if_pos h]

/-- C9: setting imageUrl to its current value is a no-op on the whole slate
state, and assigning the same url twice is equivalent to assigning it once. -/
theorem imageUrl_setter_idempotent (s : SlateState) (v : String) :
    (s.imageUrl = some v → setImageUrl s v = s) ∧
    setImageUrl (setImageUrl s v) v = setImageUrl s v :=
  ⟨setImageUrl_of_current s v,
   setImageUrl_of_current (setImageUrl s v) v (setImageUrl_imageUrl s v)⟩

/-- A slate whose current image url is img.png. -/
def demoSlate : SlateState :=
  ⟨some "img.png", some "img.png", 1, 0, 0, 1, 1, 1, true, true, 1, 1, 0, 0⟩

theorem imageUrl_setter_idempotent_witness :
    setImageUrl demoSlate "img.png" = demoSlate ∧
    setImageUrl (setImageUrl demoSlate "img.png") "img.png"
      = setImageUrl demoSlate "img.png" := by
  have h := imageUrl_setter_idempotent demoSlate "img.png"
  exact ⟨h.1 rfl, h.2⟩

end Slate
